import Mathlib

/-!
A verification development for the todo-app core: the data manager
(`TodoManager`), the validator (`TodoValidator`) and the storage layer
(`StorageManager`) are embedded shallowly.  Modelling conventions:

* JS strings are Lean `String`s; `.length` and `substring` counts are
  modelled in UTF-16 code units (`jsLength`, `utf16Take`); `trim`,
  `toLowerCase` and `includes` are modelled by `jsTrim`, `jsToLower`,
  `jsIncludes`.
* Nondeterministic inputs of the source (`new Date().toISOString()`,
  `generateId()`, success of a `localStorage` write) are passed to each
  operation as explicit oracle arguments (`now`, `newId`/`gen`, `saveOk`).
* JSON (de)serialisation of the persisted envelope is modelled as the
  identity on envelope values, and JS numbers as exact rationals.
* `Array.prototype.sort` (stable since ES2019) with the comparator
  `(a, b) => new Date(b.createdAt) - new Date(a.createdAt)` is modelled by a
  stable insertion sort with the same comparator; a NaN comparator value is
  treated as 0 exactly as the ECMAScript SortCompare does.
* `batchOperation` mutates shared objects through a shallow array copy; the
  embedding makes the object store explicit (`heapGet` over an index list)
  to reproduce that aliasing faithfully.
* Event payloads are dropped: only the event kind and, for `error` events,
  the `type`/`action` discriminators are kept, since only those are
  specified.
-/

namespace TodoApp

/-- A todo record: `{id, text, completed, createdAt, updatedAt}`. -/
structure Todo where
  id : String
  text : String
  completed : Bool
  createdAt : String
  updatedAt : String
deriving DecidableEq

def dummyTodo : Todo := ⟨"", "", false, "", ""⟩

instance : Inhabited Todo := ⟨dummyTodo⟩

/-! ### JS string primitives -/

/-- The white-space set recognised by `String.prototype.trim`. -/
def isJsWhitespace (c : Char) : Bool :=
  let n := c.toNat
  n == 9 || n == 10 || n == 11 || n == 12 || n == 13 || n == 32 || n == 160 ||
  n == 0x1680 || (0x2000 ≤ n && n ≤ 0x200A) || n == 0x2028 || n == 0x2029 ||
  n == 0x202F || n == 0x205F || n == 0x3000 || n == 0xFEFF

def jsTrimChars (l : List Char) : List Char :=
  ((l.dropWhile isJsWhitespace).reverse.dropWhile isJsWhitespace).reverse

/-- `String.prototype.trim`. -/
def jsTrim (s : String) : String := ⟨jsTrimChars s.data⟩

/-- Width of a code point in UTF-16 code units. -/
def utf16Width (c : Char) : Nat := if c.toNat ≥ 0x10000 then 2 else 1

def utf16Len (l : List Char) : Nat := (l.map utf16Width).sum

/-- JS `String.prototype.length` (UTF-16 code units). -/
def jsLength (s : String) : Nat := utf16Len s.data

/-- JS `substring(0, budget)` measured in UTF-16 units.  (If a surrogate pair
straddles the cut JS keeps a lone surrogate, which a Lean `Char` cannot
represent; the straddling code point is dropped instead.) -/
def utf16Take (budget : Nat) : List Char → List Char
  | [] => []
  | c :: rest =>
    if utf16Width c ≤ budget then c :: utf16Take (budget - utf16Width c) rest
    else []

def charsPrefixOf : List Char → List Char → Bool
  | [], _ => true
  | _ :: _, [] => false
  | a :: as, b :: bs => a == b && charsPrefixOf as bs

def charsContains (needle : List Char) : List Char → Bool
  | [] => charsPrefixOf needle []
  | c :: rest => charsPrefixOf needle (c :: rest) || charsContains needle rest

/-- JS `String.prototype.includes`. -/
def jsIncludes (s needle : String) : Bool := charsContains needle.data s.data

/-- JS `String.prototype.toLowerCase` (ASCII range, which is all the source
relies on). -/
def jsToLower (s : String) : String := ⟨s.data.map Char.toLower⟩

/-- JS `String.prototype.replace(/c/g, rep)` for a single character. -/
def replaceAll (c : Char) (rep : List Char) : List Char → List Char
  | [] => []
  | h :: rest =>
    if h == c then rep ++ replaceAll c rep rest else h :: replaceAll c rep rest

/-! ### Character classes used by the validator -/

def isDigitC (c : Char) : Bool := 48 ≤ c.toNat && c.toNat ≤ 57

/-- Digit value of an ASCII digit. -/
def dval (c : Char) : Nat := c.toNat - 48

/-- Character class of the id rule `/^[a-zA-Z0-9_-]+$/`. -/
def isIdChar (c : Char) : Bool :=
  (97 ≤ c.toNat && c.toNat ≤ 122) || (65 ≤ c.toNat && c.toNat ≤ 90) ||
  isDigitC c || c.toNat == 95 || c.toNat == 45

/-- `/^[a-zA-Z0-9_-]+$/.test id`. -/
def idPatternTest (s : String) : Bool := !s.data.isEmpty && s.data.all isIdChar

/-- Negation of `/^[^<>]*$/.test text`: the raw text contains `<` or `>`. -/
def containsAngle (s : String) : Bool :=
  s.data.any (fun c => c.toNat == 60 || c.toNat == 62)

/-- The control characters removed by sanitisation: `[\x00-\x1F\x7F]`. -/
def isCtlChar (c : Char) : Bool := c.toNat ≤ 31 || c.toNat == 127

/-! ### ISO-8601 timestamps (`/^\d{4}-\d{2}-\d{2}T\d{2}:\d{2}:\d{2}\.\d{3}Z$/`
and `new Date(...)` validity) -/

def isLeap (y : Nat) : Bool := (y % 4 == 0 && y % 100 != 0) || y % 400 == 0

def daysInMonth (y m : Nat) : Nat :=
  if m == 2 then (if isLeap y then 29 else 28)
  else if m == 4 || m == 6 || m == 9 || m == 11 then 30
  else 31

/-- Days between `y-m-d` and 1970-01-01 (proleptic Gregorian; the civil-days
algorithm run at a 400-year offset so that all intermediate values stay in
`Nat`). -/
def daysSinceEpoch (y m d : Nat) : Int :=
  let yy := y + 400
  let y2 := if m ≤ 2 then yy - 1 else yy
  let era := y2 / 400
  let yoe := y2 % 400
  let moy := if m > 2 then m - 3 else m + 9
  let doy := (153 * moy + 2) / 5 + d - 1
  let doe := yoe * 365 + yoe / 4 - yoe / 100 + doy
  (era : Int) * 146097 + (doe : Int) - 719468 - 146097

/-- Shape of one character of the timestamp pattern. -/
def isoCharOk (i : Nat) (c : Char) : Bool :=
  if i == 4 || i == 7 then c == '-'
  else if i == 10 then c == 'T'
  else if i == 13 || i == 16 then c == ':'
  else if i == 19 then c == '.'
  else if i == 23 then c == 'Z'
  else isDigitC c

/-- The timestamp regex of the validation rules. -/
def isoShape (s : String) : Bool :=
  s.data.length == 24 &&
  (List.range 24).all (fun i => isoCharOk i (s.data.getD i 'x'))

/-- `new Date(s).getTime()` for strings of the expected shape: `some` of the
epoch milliseconds when the fields form a real calendar date, `none` (NaN)
otherwise. -/
def parseIsoMillis (s : String) : Option Int :=
  match s.data with
  | [y1, y2, y3, y4, c1, m1, m2, c2, d1, d2, c3, h1, h2, c4, n1, n2, c5,
     s1, s2, c6, f1, f2, f3, c7] =>
    if c1 == '-' && c2 == '-' && c3 == 'T' && c4 == ':' && c5 == ':' &&
       c6 == '.' && c7 == 'Z' &&
       [y1, y2, y3, y4, m1, m2, d1, d2, h1, h2, n1, n2, s1, s2,
        f1, f2, f3].all isDigitC then
      let y := 1000 * dval y1 + 100 * dval y2 + 10 * dval y3 + dval y4
      let mo := 10 * dval m1 + dval m2
      let da := 10 * dval d1 + dval d2
      let ho := 10 * dval h1 + dval h2
      let mi := 10 * dval n1 + dval n2
      let se := 10 * dval s1 + dval s2
      let ms := 100 * dval f1 + 10 * dval f2 + dval f3
      if 1 ≤ mo ∧ mo ≤ 12 ∧ 1 ≤ da ∧ da ≤ daysInMonth y mo ∧
         ho ≤ 23 ∧ mi ≤ 59 ∧ se ≤ 59 then
        some (daysSinceEpoch y mo da * 86400000 +
              ((ho * 3600000 + mi * 60000 + se * 1000 + ms : Nat) : Int))
      else none
    else none
  | _ => none

/-! ### TodoValidator -/

/-- Validation error kinds (the source pushes message strings; only the
condition that produced each message is relevant, so errors are tagged). -/
inductive VError where
  | textEmpty
  | textTooShort
  | textTooLong
  | textIllegal
  | idEmpty
  | idBadPattern
  | tsEmpty (field : String)
  | tsBadPattern (field : String)
  | tsInvalidDate (field : String)
  | duplicateId (id : String)
  | itemInvalid
  | disallowedField (f : String)
deriving DecidableEq

/-- `sanitizeInput`: trim, HTML-escape (`&`, `<`, `>`, `"`, `'` in that
order), strip control characters, cap at 200. -/
def sanitizeInput (input : String) : String :=
  if input == "" then ""
  else
    let sanitized := jsTrimChars input.data
    let sanitized := replaceAll '&' ['&', 'a', 'm', 'p', ';'] sanitized
    let sanitized := replaceAll '<' ['&', 'l', 't', ';'] sanitized
    let sanitized := replaceAll '>' ['&', 'g', 't', ';'] sanitized
    let sanitized := replaceAll '"' ['&', 'q', 'u', 'o', 't', ';'] sanitized
    let sanitized :=
      replaceAll (Char.ofNat 39) ['&', '#', '3', '9', ';'] sanitized
    let sanitized := sanitized.filter (fun c => !isCtlChar c)
    let sanitized := if utf16Len sanitized > 200 then utf16Take 200 sanitized
                     else sanitized
    ⟨sanitized⟩

structure TextValidation where
  isValid : Bool
  errors : List VError
  sanitizedText : String
deriving DecidableEq

/-- `validateTodoText` on a string argument.  (`!text || text.trim() === ''`
collapses to `trim = ""` for strings; the `typeof` branch never fires.) -/
def validateTodoText (text : String) : TextValidation :=
  let errors :=
    (if jsTrim text == "" then [VError.textEmpty] else []) ++
    (if text != "" && jsLength text < 1 then [VError.textTooShort] else []) ++
    (if text != "" && jsLength text > 200 then [VError.textTooLong] else []) ++
    (if text != "" && containsAngle text then [VError.textIllegal] else [])
  { isValid := errors.isEmpty, errors := errors,
    sanitizedText := sanitizeInput text }

/-- `validateTodoId` on a string argument (error list only). -/
def validateTodoIdErrors (id : String) : List VError :=
  (if jsTrim id == "" then [VError.idEmpty] else []) ++
  (if id != "" && !idPatternTest id then [VError.idBadPattern] else [])

/-- `validateTimestamp` on a string argument (error list only). -/
def validateTimestampErrors (ts field : String) : List VError :=
  (if jsTrim ts == "" then [VError.tsEmpty field] else []) ++
  (if ts != "" && !isoShape ts then [VError.tsBadPattern field] else []) ++
  (if ts != "" && isoShape ts && (parseIsoMillis ts).isNone then
     [VError.tsInvalidDate field] else [])

structure DataValidation where
  isValid : Bool
  errors : List VError
  sanitizedTodo : Todo
deriving DecidableEq

/-- `validateTodoData` on a record-shaped object.  `completed` is a `Bool`
here, so `validateCompleted` never fails; `todo.completed || false` is kept
verbatim.  `now` stands for the `new Date().toISOString()` defaults. -/
def validateTodoData (t : Todo) (now : String) : DataValidation :=
  let textV := validateTodoText t.text
  let errors :=
    textV.errors ++ validateTodoIdErrors t.id ++
    validateTimestampErrors t.createdAt "createdAt" ++
    validateTimestampErrors t.updatedAt "updatedAt"
  { isValid := errors.isEmpty, errors := errors,
    sanitizedTodo :=
      { id := t.id
        text := textV.sanitizedText
        completed := t.completed || false
        createdAt := if t.createdAt == "" then now else t.createdAt
        updatedAt := if t.updatedAt == "" then now else t.updatedAt } }

/-- One step of the duplicate-id scan of `validateTodoArray`: the running
state is the set of seen ids (`idMap`) and the accumulated errors. -/
def dupIdStep (acc : List String × List VError) (t : Todo) :
    List String × List VError :=
  if t.id != "" && acc.1.contains t.id then
    (acc.1, acc.2 ++ [VError.duplicateId t.id])
  else if t.id != "" then (acc.1 ++ [t.id], acc.2)
  else acc

def dupIdErrors (todos : List Todo) : List VError :=
  (todos.foldl dupIdStep ([], [])).2

structure ArrayValidation where
  isValid : Bool
  errors : List VError
  validTodos : List Todo
deriving DecidableEq

/-- `validateTodoArray`: duplicate-id scan, then each record is validated
independently and every record that passes is pushed (in order) onto
`validTodos`. -/
def validateTodoArray (todos : List Todo) (now : String) : ArrayValidation :=
  let dupErrs := dupIdErrors todos
  let itemErrs := todos.filterMap fun t =>
    if (validateTodoData t now).isValid then none else some VError.itemInvalid
  let valid := todos.filterMap fun t =>
    let v := validateTodoData t now
    if v.isValid then some v.sanitizedTodo else none
  { isValid := (dupErrs ++ itemErrs).isEmpty, errors := dupErrs ++ itemErrs,
    validTodos := valid }

structure CreateResult where
  isValid : Bool
  errors : List VError
  todo : Option Todo
deriving DecidableEq

/-- `createValidTodo`; `newId` is the `generateId()` oracle and `now` the
timestamp oracle. -/
def createValidTodo (text newId now : String) : CreateResult :=
  let textV := validateTodoText text
  if !textV.isValid then ⟨false, textV.errors, none⟩
  else ⟨true, [],
    some { id := newId, text := textV.sanitizedText, completed := false,
           createdAt := now, updatedAt := now }⟩

/-- An update object passed to `validateUpdates`: optional `text` and
`completed` plus the names of any other fields present. -/
structure UpdatePatch where
  text : Option String
  completed : Option Bool
  extraFields : List String
deriving DecidableEq

structure UpdatesValidation where
  isValid : Bool
  errors : List VError
  sanText : Option String
  sanCompleted : Option Bool
  stampsUpdatedAt : Bool
deriving DecidableEq

/-- `validateUpdates`: only `text`/`completed` may be updated; a sanitized
`updatedAt` stamp is added whenever some sanitized field was set.
(`validateCompleted` on a `Bool` never fails.) -/
def validateUpdates (p : UpdatePatch) : UpdatesValidation :=
  let extraErrs := p.extraFields.map VError.disallowedField
  let textPart : List VError × Option String :=
    match p.text with
    | none => ([], none)
    | some s =>
      let v := validateTodoText s
      if v.isValid then ([], some v.sanitizedText) else (v.errors, none)
  let errors := extraErrs ++ textPart.1
  { isValid := errors.isEmpty, errors := errors, sanText := textPart.2,
    sanCompleted := p.completed,
    stampsUpdatedAt := textPart.2.isSome || p.completed.isSome }

/-! ### StorageManager -/

/-- The persisted envelope `{todos, version, lastSync}` stored under the
fixed key.  JSON (de)serialisation is modelled as the identity on these
values. -/
structure StoredData where
  todos : List Todo
  version : String
  lastSync : Option String
deriving DecidableEq

/-- `StorageManager.saveTodos`: wrap the list in an envelope. -/
def storageSaveTodos (todos : List Todo) (now : String) : StoredData :=
  { todos := todos, version := "1.0", lastSync := some now }

/-- Field defaulting applied per record by `StorageManager.loadTodos`
(`todo.id || this.generateId()` etc.); `gen i` is the `generateId()` oracle
for position `i` and `now` the timestamp oracle.  For strings `x || ''`
is the identity, so `text` is kept as is. -/
def migrateTodo (now : String) (gen : Nat → String) (i : Nat) (t : Todo) :
    Todo :=
  { id := if t.id == "" then gen i else t.id
    text := t.text
    completed := t.completed || false
    createdAt := if t.createdAt == "" then now else t.createdAt
    updatedAt := if t.updatedAt == "" then now else t.updatedAt }

def migrateList (now : String) (gen : Nat → String) (i : Nat) :
    List Todo → List Todo
  | [] => []
  | t :: rest => migrateTodo now gen i t :: migrateList now gen (i + 1) rest

/-- `StorageManager.loadTodos`: stored envelope (or the default one) with
the defaulting map applied. -/
def storageLoadTodos (stored : Option StoredData) (now : String)
    (gen : Nat → String) : StoredData :=
  match stored with
  | none => { todos := [], version := "1.0", lastSync := none }
  | some data => { data with todos := migrateList now gen 0 data.todos }

/-! ### Sorting by creation time (newest first) -/

/-- The comparator `(a, b) => new Date(b.createdAt) - new Date(a.createdAt)`;
a NaN result is treated as 0, as the ECMAScript SortCompare does. -/
def jsDateCmp (a b : Todo) : Int :=
  match parseIsoMillis b.createdAt, parseIsoMillis a.createdAt with
  | some x, some y => x - y
  | _, _ => 0

/-- Stable insertion consistent with the stable `Array.prototype.sort`:
`t` is placed before the first element it need not come after. -/
def insertTodo (t : Todo) : List Todo → List Todo
  | [] => [t]
  | h :: rest =>
    if jsDateCmp t h ≤ 0 then t :: h :: rest else h :: insertTodo t rest

def sortTodos : List Todo → List Todo
  | [] => []
  | h :: rest => insertTodo h (sortTodos rest)

/-! ### TodoManager -/

/-- Notifications emitted through `emit`; payloads are reduced to the
specified discriminators. -/
inductive Event where
  | validationError (action : String)
  | notFound (action : String)
  | errorSave (action : String)
  | todoAdded
  | todoToggled
  | todoDeleted
  | todoUpdated
  | todosSaved
  | todosLoaded
  | allTodosCleared
  | batchDone
  | dataImported
  | initializedEvent
deriving DecidableEq

/-- Manager state: the in-memory list, the `initialized` flag and the
content of the storage key. -/
structure MState where
  todos : List Todo
  initialized : Bool
  stored : Option StoredData
deriving DecidableEq

/-- Result of one manager operation: new state, return value, events emitted
(in order) and the number of storage writes attempted. -/
structure MOut (ρ : Type) where
  state : MState
  ret : ρ
  events : List Event
  saveCalls : Nat

/-- `saveTodos`: persists the current list; `saveOk` is the outcome of the
underlying `localStorage` write.  On success a `todos-saved` event is
emitted; on failure `StorageManager.save` returns `false` (its DOM-level
`storage-error` event is outside the manager's listener registry). -/
def saveTodosM (st : MState) (now : String) (saveOk : Bool) :
    MState × Bool × List Event :=
  if saveOk then
    ({ st with stored := some (storageSaveTodos st.todos now) }, true,
     [Event.todosSaved])
  else (st, false, [])

/-- `this.todos.find(t => t.id === id)`. -/
def jsFind (todos : List Todo) (id : String) : Option Todo :=
  todos.find? (fun t => t.id == id)

/-- In-place mutation of the first element matching `p` (JS `find` returns a
reference into the array). -/
def mutateFirst (p : Todo → Bool) (f : Todo → Todo) : List Todo → List Todo
  | [] => []
  | h :: rest => if p h then f h :: rest else h :: mutateFirst p f rest

/-- `addTodo` (oracles: `newId`, `now`, `saveOk`).  When validation passed,
`result.todo` is always present; `getD` materialises that invariant. -/
def addTodo (st : MState) (text newId now : String) (saveOk : Bool) :
    MOut (Option Todo) :=
  if !st.initialized then ⟨st, none, [], 0⟩
  else
    let result := createValidTodo text newId now
    if !result.isValid then ⟨st, none, [Event.validationError "add"], 0⟩
    else
      let todo := result.todo.getD dummyTodo
      let st1 := { st with todos := todo :: st.todos }
      let (st2, ok, ev) := saveTodosM st1 now saveOk
      if ok then ⟨st2, some todo, ev ++ [Event.todoAdded], 1⟩
      else
        ⟨{ st2 with todos := st2.todos.tail }, none,
         ev ++ [Event.errorSave "add"], 1⟩

/-- `toggleTodo`: flips `completed` and stamps `updatedAt` on the found
object; on save failure only `completed` is flipped back. -/
def toggleTodo (st : MState) (id now : String) (saveOk : Bool) : MOut Bool :=
  if !st.initialized then ⟨st, false, [], 0⟩
  else
    match jsFind st.todos id with
    | none => ⟨st, false, [Event.notFound "toggle"], 0⟩
    | some _ =>
      let todos1 :=
        mutateFirst (fun t => t.id == id)
          (fun t => { t with completed := !t.completed, updatedAt := now })
          st.todos
      let st1 := { st with todos := todos1 }
      let (st2, ok, ev) := saveTodosM st1 now saveOk
      if ok then ⟨st2, true, ev ++ [Event.todoToggled], 1⟩
      else
        let todos2 :=
          mutateFirst (fun t => t.id == id)
            (fun t => { t with completed := !t.completed }) st2.todos
        ⟨{ st2 with todos := todos2 }, false,
         ev ++ [Event.errorSave "toggle"], 1⟩

/-- `deleteTodo`: splice out at the found index; on save failure splice the
record back in at the same index. -/
def deleteTodo (st : MState) (id now : String) (saveOk : Bool) : MOut Bool :=
  if !st.initialized then ⟨st, false, [], 0⟩
  else
    match st.todos.findIdx? (fun t => t.id == id) with
    | none => ⟨st, false, [Event.notFound "delete"], 0⟩
    | some i =>
      let deleted := st.todos.getD i dummyTodo
      let st1 := { st with todos := st.todos.eraseIdx i }
      let (st2, ok, ev) := saveTodosM st1 now saveOk
      if ok then ⟨st2, true, ev ++ [Event.todoDeleted], 1⟩
      else
        ⟨{ st2 with todos := st2.todos.insertIdx i deleted }, false,
         ev ++ [Event.errorSave "delete"], 1⟩

/-- `Object.assign(todo, validation.sanitizedUpdates)`. -/
def applyUpdates (v : UpdatesValidation) (now : String) (t : Todo) : Todo :=
  { t with
    text := v.sanText.getD t.text
    completed := v.sanCompleted.getD t.completed
    updatedAt := if v.stampsUpdatedAt then now else t.updatedAt }

/-- `updateTodo`: validate the patch, apply it to the found object; on save
failure `Object.assign(todo, originalTodo)` restores the full snapshot. -/
def updateTodo (st : MState) (id : String) (p : UpdatePatch) (now : String)
    (saveOk : Bool) : MOut Bool :=
  if !st.initialized then ⟨st, false, [], 0⟩
  else
    match jsFind st.todos id with
    | none => ⟨st, false, [Event.notFound "update"], 0⟩
    | some orig =>
      let v := validateUpdates p
      if !v.isValid then ⟨st, false, [Event.validationError "update"], 0⟩
      else
        let todos1 :=
          mutateFirst (fun t => t.id == id) (applyUpdates v now) st.todos
        let st1 := { st with todos := todos1 }
        let (st2, ok, ev) := saveTodosM st1 now saveOk
        if ok then ⟨st2, true, ev ++ [Event.todoUpdated], 1⟩
        else
          let todos2 :=
            mutateFirst (fun t => t.id == id) (fun _ => orig) st2.todos
          ⟨{ st2 with todos := todos2 }, false,
           ev ++ [Event.errorSave "update"], 1⟩

/-- `getAllTodos` (returns a copy; value-identical here). -/
def getAllTodos (st : MState) : List Todo := st.todos

def getCompletedTodos (todos : List Todo) : List Todo :=
  todos.filter (fun t => t.completed)

def getPendingTodos (todos : List Todo) : List Todo :=
  todos.filter (fun t => !t.completed)

structure Stats where
  total : Nat
  completed : Nat
  pending : Nat
  completionRate : ℚ
deriving DecidableEq

/-- `Math.round`: round half toward positive infinity. -/
def jsRound (x : ℚ) : Int := ⌊x + 1 / 2⌋

/-- `getStats` (JS numbers modelled as exact rationals). -/
def getStats (todos : List Todo) : Stats :=
  let total := todos.length
  let completed := (getCompletedTodos todos).length
  let pending := (getPendingTodos todos).length
  let completionRate : ℚ :=
    if total > 0 then (completed : ℚ) / (total : ℚ) else 0
  { total := total, completed := completed, pending := pending,
    completionRate := (jsRound (completionRate * 100) : ℚ) / 100 }

/-- `searchTodos`: for a string query, `!query` is truthy exactly for `""`;
otherwise case-insensitive substring match on the trimmed, lowered query. -/
def searchTodos (st : MState) (query : String) : List Todo :=
  if query == "" then []
  else
    let searchTerm := jsTrim (jsToLower query)
    st.todos.filter (fun t => jsIncludes (jsToLower t.text) searchTerm)

/-- `clearAllTodos`. -/
def clearAllTodos (st : MState) (now : String) (saveOk : Bool) : MOut Bool :=
  if !st.initialized then ⟨st, false, [], 0⟩
  else
    let cleared := st.todos
    let st1 := { st with todos := [] }
    let (st2, ok, ev) := saveTodosM st1 now saveOk
    if ok then ⟨st2, true, ev ++ [Event.allTodosCleared], 1⟩
    else ⟨{ st2 with todos := cleared }, false,
          ev ++ [Event.errorSave "clear"], 1⟩

/-! ### batchOperation

JS objects are aliased: `originalTodos = [...this.todos]` copies the array
but shares the record objects, and `complete`/`incomplete` mutate those
objects in place.  The embedding therefore keeps an explicit object store:
`objects` holds the record objects indexed by their position in the pre-call
list, and the array `this.todos` is the index list `alive`. -/

structure BatchResult where
  success : Bool
  processed : Nat
deriving DecidableEq

def heapGet (objects : List Todo) (n : Nat) : Todo := objects.getD n dummyTodo

/-- One loop iteration of `batchOperation` over an id. -/
def batchStep (now action : String) (acc : List Todo × List Nat × Nat)
    (id : String) : List Todo × List Nat × Nat :=
  let (objects, alive, processed) := acc
  match alive.find? (fun n => (heapGet objects n).id == id) with
  | none => (objects, alive, processed)
  | some n =>
    let todo := heapGet objects n
    if action == "complete" then
      if !todo.completed then
        (objects.set n { todo with completed := true, updatedAt := now },
         alive, processed + 1)
      else (objects, alive, processed)
    else if action == "incomplete" then
      if todo.completed then
        (objects.set n { todo with completed := false, updatedAt := now },
         alive, processed + 1)
      else (objects, alive, processed)
    else (objects, alive.erase n, processed + 1)

/-- `batchOperation(ids, action)`.  `processed > 0 && this.saveTodos()`
short-circuits, so no write is attempted for a no-op batch; the rollback
`this.todos = originalTodos` restores the original index list but keeps the
current (possibly mutated) objects.  The source's `affectedTodos` only feeds
the success-event payload and is dropped with the payloads. -/
def batchOperation (st : MState) (ids : List String) (action now : String)
    (saveOk : Bool) : MOut BatchResult :=
  if !st.initialized then ⟨st, ⟨false, 0⟩, [], 0⟩
  else if ids.isEmpty then ⟨st, ⟨false, 0⟩, [], 0⟩
  else if !(action == "complete" || action == "incomplete" ||
            action == "delete") then ⟨st, ⟨false, 0⟩, [], 0⟩
  else
    let alive0 := List.range st.todos.length
    let (objects, alive, processed) :=
      ids.foldl (batchStep now action) (st.todos, alive0, 0)
    if processed > 0 then
      let st1 := { st with todos := alive.map (heapGet objects) }
      let (st2, ok, ev) := saveTodosM st1 now saveOk
      if ok then ⟨st2, ⟨true, processed⟩, ev ++ [Event.batchDone], 1⟩
      else
        ⟨{ st2 with todos := alive0.map (heapGet objects) }, ⟨false, 0⟩,
         ev ++ [Event.errorSave "batch"], 1⟩
    else
      ⟨{ st with todos := alive0.map (heapGet objects) }, ⟨false, 0⟩,
       [Event.errorSave "batch"], 0⟩

/-! ### load / initialize / import / export -/

/-- `loadTodos`: read the envelope, validate, keep `validTodos` (the source
assigns `validation.validTodos` on both branches of its `isValid` check),
sort newest-first. -/
def loadTodosM (st : MState) (now : String) (gen : Nat → String) :
    MState × Bool × List Event :=
  let data := storageLoadTodos st.stored now gen
  let validation := validateTodoArray data.todos now
  ({ st with todos := sortTodos validation.validTodos }, true,
   [Event.todosLoaded])

/-- `initialize`. -/
def initializeM (st : MState) (now : String) (gen : Nat → String) :
    MState × Bool × List Event :=
  let (st1, _, ev) := loadTodosM st now gen
  ({ st1 with initialized := true }, true, ev ++ [Event.initializedEvent])

/-- `exportData`: `JSON.stringify(storage.loadTodos(), null, 2)`; the JSON
string is modelled by the envelope value itself. -/
def exportDataM (st : MState) (now : String) (gen : Nat → String) :
    StoredData :=
  storageLoadTodos st.stored now gen

/-- `importData` on the manager: the storage-level import parses the
envelope, requires `todos` to be an array of entries with a non-empty string
`text`, and saves; on success the manager re-runs `loadTodos` and emits
`data-imported`. -/
def managerImportData (st : MState) (env : StoredData) (now : String)
    (gen : Nat → String) (saveOk : Bool) : MOut Bool :=
  if !(env.todos.all (fun t => t.text != "")) then ⟨st, false, [], 0⟩
  else if saveOk then
    let st1 := { st with stored := some (storageSaveTodos env.todos now) }
    let (st2, _, ev) := loadTodosM st1 now gen
    ⟨st2, true, ev ++ [Event.dataImported], 1⟩
  else ⟨st, false, [], 1⟩

/-! ### Predicates used to state the claims -/

/-- Descending creation order as the sort comparator sees it. -/
def descR (a b : Todo) : Prop := jsDateCmp a b ≤ 0

instance : DecidableRel descR := fun a b => by unfold descR; infer_instance

/-- Text that sanitisation leaves unchanged: already trimmed, no
markup-significant characters, no control characters, at most 200 units. -/
def sanitizeStable (s : String) : Bool :=
  jsTrim s == s &&
  s.data.all (fun c => !(c.toNat == 38 || c.toNat == 60 || c.toNat == 62 ||
                         c.toNat == 34 || c.toNat == 39)) &&
  s.data.all (fun c => !isCtlChar c) &&
  jsLength s ≤ 200

/-- A fully well-formed record: valid under every field rule and with text
that sanitisation leaves unchanged. -/
def goodTodo (t : Todo) : Bool :=
  t.text != "" && sanitizeStable t.text && idPatternTest t.id &&
  (isoShape t.createdAt && (parseIsoMillis t.createdAt).isSome) &&
  (isoShape t.updatedAt && (parseIsoMillis t.updatedAt).isSome)

/-! ### Fixtures and claim-side predicates -/

/-- The record created by a successful `addTodo text` with oracles
`newId`/`now`. -/
def newTodoOf (text newId now : String) : Todo :=
  { id := newId, text := (validateTodoText text).sanitizedText,
    completed := false, createdAt := now, updatedAt := now }

/-- The state of a freshly constructed manager over empty storage. -/
def emptyState : MState :=
  { todos := [], initialized := false, stored := none }

def sampleT0 : String := "2024-01-01T00:00:00.000Z"

def sampleT1 : String := "2024-01-02T00:00:00.000Z"

/-- A single pending record used by concrete scenarios. -/
def sampleTodo : Todo :=
  { id := "a1", text := "x", completed := false, createdAt := sampleT0,
    updatedAt := sampleT0 }

/-- A ready manager holding `sampleTodo`, in sync with storage. -/
def sampleState : MState :=
  { todos := [sampleTodo], initialized := true,
    stored := some { todos := [sampleTodo], version := "1.0",
                     lastSync := some sampleT0 } }

def genDefault : Nat → String := fun _ => "gid"

/-- Claim side of C4, stated from the claim wording for comparison with
`validateTodoText`: rejection exactly when blank after trimming, trimmed
length outside 1-200, or the raw text contains an angle bracket. -/
def claimTextRejects (s : String) : Prop :=
  jsTrim s = "" ∨ jsLength (jsTrim s) < 1 ∨ 200 < jsLength (jsTrim s) ∨
  containsAngle s = true

instance (s : String) : Decidable (claimTextRejects s) := by
  unfold claimTextRejects; infer_instance

/-- 200 copies of `a` followed by a space: raw length 201, trimmed
length 200. -/
def longA : String := ⟨List.replicate 200 'a' ++ [' ']⟩

/-- Two individually valid records sharing one id. -/
def dupA : Todo :=
  { id := "dup1", text := "abc", completed := false, createdAt := sampleT0,
    updatedAt := sampleT0 }

def dupB : Todo :=
  { id := "dup1", text := "xyz", completed := true, createdAt := sampleT0,
    updatedAt := sampleT0 }

/-- The reachable state obtained by initializing over empty storage and
adding the text `a&b` (stored HTML-escaped as `a&amp;b`), with the save
succeeding; its in-memory list equals the persisted copy. -/
def roundTripState : MState :=
  (addTodo (initializeM emptyState sampleT0 genDefault).1 "a&b" "x1"
    sampleT0 true).state

/-! ## Lemmas about the string primitives -/

theorem utf16Width_pos (c : Char) : 1 ≤ utf16Width c := by
  unfold utf16Width; split <;> omega

theorem utf16Len_cons (c : Char) (l : List Char) :
    utf16Len (c :: l) = utf16Width c + utf16Len l := by
  simp [utf16Len]

theorem one_le_utf16Len (l : List Char) (h : l ≠ []) : 1 ≤ utf16Len l := by
  cases l with
  | nil => exact absurd rfl h
  | cons c rest => have := utf16Width_pos c; rw [utf16Len_cons]; omega

theorem string_data_ne (s : String) (h : s ≠ "") : s.data ≠ [] := by
  intro hd; exact h (String.ext hd)

theorem one_le_jsLength (s : String) (h : s ≠ "") : 1 ≤ jsLength s :=
  one_le_utf16Len s.data (string_data_ne s h)

theorem mem_dropWhile_of_neg {α} (p : α → Bool) (c : α) (hp : p c = false) :
    ∀ (l : List α), c ∈ l → c ∈ l.dropWhile p := by
  intro l
  induction l with
  | nil => intro h; simp at h
  | cons a rest ih =>
    intro hc
    rw [List.dropWhile_cons]
    by_cases hpa : p a = true
    · simp only [hpa, if_true]
      rcases List.mem_cons.mp hc with h | h
      · rw [h] at hp; rw [hp] at hpa; cases hpa
      · exact ih h
    · simp only [hpa, if_false]
      exact hc

theorem jsTrimChars_ne_nil {l : List Char} {c : Char} (hc : c ∈ l)
    (hw : isJsWhitespace c = false) : jsTrimChars l ≠ [] := by
  unfold jsTrimChars
  intro h
  have h1 : c ∈ l.dropWhile isJsWhitespace :=
    mem_dropWhile_of_neg _ c hw l hc
  have h2 : c ∈ (l.dropWhile isJsWhitespace).reverse := List.mem_reverse.mpr h1
  have h3 := mem_dropWhile_of_neg isJsWhitespace c hw _ h2
  rw [List.reverse_eq_nil_iff] at h
  rw [h] at h3
  simp at h3

theorem jsTrim_ne_empty {s : String} {c : Char} (hc : c ∈ s.data)
    (hw : isJsWhitespace c = false) : jsTrim s ≠ "" := by
  intro h
  exact jsTrimChars_ne_nil hc hw (congrArg String.data h)

theorem jsTrimChars_eq_nil {l : List Char}
    (h : ∀ c ∈ l, isJsWhitespace c = true) : jsTrimChars l = [] := by
  unfold jsTrimChars
  rw [List.dropWhile_eq_nil_iff.mpr h]
  simp

theorem toLower_of_ws {c : Char} (h : isJsWhitespace c = true) :
    Char.toLower c = c := by
  unfold Char.toLower
  have hn : ¬(c.toNat ≥ 65 ∧ c.toNat ≤ 90) := by
    simp only [isJsWhitespace, Bool.or_eq_true, beq_iff_eq,
      Bool.and_eq_true, decide_eq_true_eq] at h
    omega
  simp [hn]

theorem charsContains_nil (l : List Char) : charsContains [] l = true := by
  cases l <;> simp [charsContains, charsPrefixOf]

theorem jsIncludes_empty (s : String) : jsIncludes s "" = true := by
  unfold jsIncludes
  rw [show ("" : String).data = [] from rfl, charsContains_nil]

theorem char_ne_beq {c a : Char} (h : c.toNat ≠ a.toNat) : (c == a) = false := by
  simp only [beq_eq_false_iff_ne, ne_eq]
  intro hc; exact h (congrArg Char.toNat hc)

theorem replaceAll_of_absent {a : Char} {rep : List Char} :
    ∀ {l : List Char}, (∀ c ∈ l, (c == a) = false) → replaceAll a rep l = l := by
  intro l
  induction l with
  | nil => intro _; rfl
  | cons h rest ih =>
    intro hall
    unfold replaceAll
    rw [hall h (by simp)]
    simp only [Bool.false_eq_true, if_false, List.cons.injEq, true_and]
    exact ih (fun c hc => hall c (List.mem_cons_of_mem _ hc))

theorem sanitizeInput_eq_self {s : String} (hne : s ≠ "")
    (htrim : jsTrim s = s)
    (hspec : ∀ c ∈ s.data,
      (c.toNat == 38 || c.toNat == 60 || c.toNat == 62 ||
       c.toNat == 34 || c.toNat == 39) = false)
    (hctl : ∀ c ∈ s.data, isCtlChar c = false)
    (hlen : jsLength s ≤ 200) :
    sanitizeInput s = s := by
  have hnums : ∀ c ∈ s.data, c.toNat ≠ 38 ∧ c.toNat ≠ 60 ∧ c.toNat ≠ 62 ∧
      c.toNat ≠ 34 ∧ c.toNat ≠ 39 := by
    intro c hc
    have := hspec c hc
    simp only [Bool.or_eq_false_iff, beq_eq_false_iff_ne, ne_eq] at this
    tauto
  have hdata : jsTrimChars s.data = s.data := congrArg String.data htrim
  have e1 : replaceAll '&' ['&', 'a', 'm', 'p', ';'] s.data = s.data := by
    refine replaceAll_of_absent (fun c hc => char_ne_beq ?_)
    show c.toNat ≠ 38
    exact (hnums c hc).1
  have e2 : replaceAll '<' ['&', 'l', 't', ';'] s.data = s.data := by
    refine replaceAll_of_absent (fun c hc => char_ne_beq ?_)
    show c.toNat ≠ 60
    exact (hnums c hc).2.1
  have e3 : replaceAll '>' ['&', 'g', 't', ';'] s.data = s.data := by
    refine replaceAll_of_absent (fun c hc => char_ne_beq ?_)
    show c.toNat ≠ 62
    exact (hnums c hc).2.2.1
  have e4 : replaceAll '"' ['&', 'q', 'u', 'o', 't', ';'] s.data = s.data := by
    refine replaceAll_of_absent (fun c hc => char_ne_beq ?_)
    show c.toNat ≠ 34
    exact (hnums c hc).2.2.2.1
  have e5 : replaceAll (Char.ofNat 39) ['&', '#', '3', '9', ';'] s.data =
      s.data := by
    refine replaceAll_of_absent (fun c hc => char_ne_beq ?_)
    show c.toNat ≠ 39
    exact (hnums c hc).2.2.2.2
  have e6 : s.data.filter (fun c => !isCtlChar c) = s.data :=
    List.filter_eq_self.mpr (fun c hc => by rw [hctl c hc]; rfl)
  unfold sanitizeInput
  rw [if_neg (by simp [hne])]
  simp only [hdata, e1, e2, e3, e4, e5, e6]
  have hl2 : utf16Len s.data ≤ 200 := hlen
  rw [if_neg (by omega)]


/-! ## Lemmas about the validator -/

theorem ws_codes {c : Char} (h : isJsWhitespace c = true) :
    c.toNat = 9 ∨ c.toNat = 10 ∨ c.toNat = 11 ∨ c.toNat = 12 ∨ c.toNat = 13 ∨
    c.toNat = 32 ∨ c.toNat = 160 ∨ c.toNat = 0x1680 ∨
    (0x2000 ≤ c.toNat ∧ c.toNat ≤ 0x200A) ∨ c.toNat = 0x2028 ∨
    c.toNat = 0x2029 ∨ c.toNat = 0x202F ∨ c.toNat = 0x205F ∨
    c.toNat = 0x3000 ∨ c.toNat = 0xFEFF := by
  simp only [isJsWhitespace, Bool.or_eq_true, beq_iff_eq, Bool.and_eq_true,
    decide_eq_true_eq] at h
  tauto

theorem isIdChar_not_ws {c : Char} (h : isIdChar c = true) :
    isJsWhitespace c = false := by
  rcases hb : isJsWhitespace c with _ | _
  · rfl
  · exfalso
    simp only [isIdChar, isDigitC, Bool.or_eq_true, Bool.and_eq_true,
      decide_eq_true_eq, beq_iff_eq] at h
    rcases ws_codes hb with h9 | h9 | h9 | h9 | h9 | h9 | h9 | h9 | h9 | h9 |
      h9 | h9 | h9 | h9 | h9 <;> omega

theorem isDigitC_not_ws {c : Char} (h : isDigitC c = true) :
    isJsWhitespace c = false := by
  rcases hb : isJsWhitespace c with _ | _
  · rfl
  · exfalso
    simp only [isDigitC, Bool.and_eq_true, decide_eq_true_eq] at h
    rcases ws_codes hb with h9 | h9 | h9 | h9 | h9 | h9 | h9 | h9 | h9 | h9 |
      h9 | h9 | h9 | h9 | h9 <;> omega

theorem validText_invalid_iff (s : String) :
    (validateTodoText s).isValid = false ↔
      jsTrim s = "" ∨ 200 < jsLength s ∨ containsAngle s = true := by
  by_cases hs : s = ""
  · subst hs; decide
  · have hns : ¬(jsLength s < 1) := by have := one_le_jsLength s hs; omega
    have hval : (validateTodoText s).isValid =
        ((if jsTrim s == "" then [VError.textEmpty] else []) ++
         (if s != "" && jsLength s < 1 then [VError.textTooShort] else []) ++
         (if s != "" && jsLength s > 200 then [VError.textTooLong] else []) ++
         (if s != "" && containsAngle s then [VError.textIllegal]
          else [])).isEmpty := rfl
    rw [hval]
    by_cases hE : jsTrim s = "" <;> by_cases hL : 200 < jsLength s <;>
      by_cases hA : containsAngle s = true <;>
      simp [hE, hL, hA, hs, hns, Nat.lt_irrefl]

theorem validText_valid {s : String} (h1 : jsTrim s ≠ "")
    (h2 : jsLength s ≤ 200) (h3 : containsAngle s = false) :
    (validateTodoText s).isValid = true := by
  rcases hb : (validateTodoText s).isValid with _ | _
  · exfalso
    rcases (validText_invalid_iff s).mp hb with h | h | h
    · exact h1 h
    · omega
    · rw [h3] at h; cases h
  · rfl

theorem validText_errors_nil {s : String}
    (h : (validateTodoText s).isValid = true) :
    (validateTodoText s).errors = [] := by
  have : (validateTodoText s).errors.isEmpty = true := h
  exact List.isEmpty_iff.mp this

theorem validateTodoIdErrors_nil {id : String} (h : idPatternTest id = true) :
    validateTodoIdErrors id = [] := by
  have hall : ∀ c ∈ id.data, isIdChar c = true := by
    have h2 := h
    simp only [idPatternTest, Bool.and_eq_true, List.all_eq_true] at h2
    exact h2.2
  have hne : id.data ≠ [] := by
    intro hc
    rw [idPatternTest, hc] at h
    simp at h
  obtain ⟨c, rest, hd⟩ := List.exists_cons_of_ne_nil hne
  have hmem : c ∈ id.data := by rw [hd]; simp
  have hw : isJsWhitespace c = false := isIdChar_not_ws (hall c hmem)
  have htr : jsTrim id ≠ "" := jsTrim_ne_empty hmem hw
  unfold validateTodoIdErrors
  rw [if_neg (by simp [htr]), if_neg (by simp [h])]
  rfl

theorem isoShape_facts {ts : String} (h : isoShape ts = true) :
    ts.data.length = 24 ∧ isDigitC (ts.data.getD 0 'x') = true := by
  have h2 := h
  simp only [isoShape, Bool.and_eq_true, beq_iff_eq, List.all_eq_true] at h2
  refine ⟨h2.1, ?_⟩
  have h0 := h2.2 0 (by decide)
  exact h0

theorem isoShape_ne_empty {ts : String} (h : isoShape ts = true) : ts ≠ "" := by
  intro hc
  have := (isoShape_facts h).1
  rw [hc] at this
  simp at this

theorem validateTimestampErrors_nil {ts : String} (f : String)
    (h1 : isoShape ts = true) (h2 : (parseIsoMillis ts).isSome = true) :
    validateTimestampErrors ts f = [] := by
  obtain ⟨hlen, hdig⟩ := isoShape_facts h1
  have hne : ts.data ≠ [] := by intro hh; rw [hh] at hlen; simp at hlen
  have hmem : ts.data.getD 0 'x' ∈ ts.data := by
    obtain ⟨c, rest, hd⟩ := List.exists_cons_of_ne_nil hne
    rw [hd]; simp
  have hw : isJsWhitespace (ts.data.getD 0 'x') = false := isDigitC_not_ws hdig
  have htr : jsTrim ts ≠ "" := jsTrim_ne_empty hmem hw
  have hnone : (parseIsoMillis ts).isNone = false := by
    cases hp : parseIsoMillis ts with
    | none => rw [hp] at h2; simp at h2
    | some v => simp
  unfold validateTimestampErrors
  rw [if_neg (by simp [htr]), if_neg (by simp [h1]), if_neg (by simp [hnone])]
  rfl

theorem sanitizeStable_facts {s : String} (h : sanitizeStable s = true) :
    jsTrim s = s ∧
    (∀ c ∈ s.data,
      (c.toNat == 38 || c.toNat == 60 || c.toNat == 62 ||
       c.toNat == 34 || c.toNat == 39) = false) ∧
    (∀ c ∈ s.data, isCtlChar c = false) ∧ jsLength s ≤ 200 := by
  simp only [sanitizeStable, Bool.and_eq_true, beq_iff_eq, List.all_eq_true,
    Bool.not_eq_true', decide_eq_true_eq] at h
  obtain ⟨⟨⟨ht, hs⟩, hc⟩, hl⟩ := h
  exact ⟨ht, hs, hc, hl⟩

theorem goodTodo_facts {t : Todo} (h : goodTodo t = true) :
    t.text ≠ "" ∧ sanitizeStable t.text = true ∧ idPatternTest t.id = true ∧
    (isoShape t.createdAt = true ∧ (parseIsoMillis t.createdAt).isSome = true) ∧
    (isoShape t.updatedAt = true ∧ (parseIsoMillis t.updatedAt).isSome = true)
    := by
  simp only [goodTodo, Bool.and_eq_true, bne_iff_ne, ne_eq] at h
  obtain ⟨⟨⟨⟨hne, hst⟩, hid⟩, hcr⟩, hup⟩ := h
  exact ⟨hne, hst, hid, hcr, hup⟩

theorem containsAngle_of_stable {s : String} (hs : sanitizeStable s = true) :
    containsAngle s = false := by
  obtain ⟨-, hspec, -, -⟩ := sanitizeStable_facts hs
  rcases hb : containsAngle s with _ | _
  · rfl
  · exfalso
    simp only [containsAngle, List.any_eq_true, Bool.or_eq_true,
      beq_iff_eq] at hb
    obtain ⟨c, hc, hcn⟩ := hb
    have := hspec c hc
    simp only [Bool.or_eq_false_iff, beq_eq_false_iff_ne, ne_eq] at this
    rcases hcn with h6 | h6 <;> tauto

theorem validateTodoText_good {s : String} (hne : s ≠ "")
    (hst : sanitizeStable s = true) :
    (validateTodoText s).isValid = true ∧
    (validateTodoText s).sanitizedText = s := by
  obtain ⟨htrim, hspec, hctl, hlen⟩ := sanitizeStable_facts hst
  have htr : jsTrim s ≠ "" := by rw [htrim]; exact hne
  refine ⟨validText_valid htr hlen (containsAngle_of_stable hst), ?_⟩
  show sanitizeInput s = s
  exact sanitizeInput_eq_self hne htrim hspec hctl hlen

theorem validateTodoData_good (t : Todo) (now : String)
    (h : goodTodo t = true) :
    (validateTodoData t now).isValid = true ∧
    (validateTodoData t now).sanitizedTodo = t := by
  obtain ⟨hne, hst, hid, ⟨hcs, hcp⟩, ⟨hus, hup⟩⟩ := goodTodo_facts h
  obtain ⟨htv, hts⟩ := validateTodoText_good hne hst
  have he1 : (validateTodoText t.text).errors = [] := validText_errors_nil htv
  have he2 := validateTodoIdErrors_nil hid
  have he3 := validateTimestampErrors_nil "createdAt" hcs hcp
  have he4 := validateTimestampErrors_nil "updatedAt" hus hup
  have hcne : t.createdAt ≠ "" := isoShape_ne_empty hcs
  have hune : t.updatedAt ≠ "" := isoShape_ne_empty hus
  constructor
  · show ((validateTodoText t.text).errors ++ validateTodoIdErrors t.id ++
      validateTimestampErrors t.createdAt "createdAt" ++
      validateTimestampErrors t.updatedAt "updatedAt").isEmpty = true
    rw [he1, he2, he3, he4]
    rfl
  · show ({ id := t.id, text := (validateTodoText t.text).sanitizedText,
            completed := t.completed || false,
            createdAt := if t.createdAt == "" then now else t.createdAt,
            updatedAt := if t.updatedAt == "" then now else t.updatedAt }
          : Todo) = t
    rw [hts, Bool.or_false, if_neg (by simp [hcne]), if_neg (by simp [hune])]

theorem filterMap_eq_self {α} {f : α → Option α} :
    ∀ {l : List α}, (∀ a ∈ l, f a = some a) → l.filterMap f = l := by
  intro l
  induction l with
  | nil => intro _; rfl
  | cons a rest ih =>
    intro h
    rw [List.filterMap_cons, h a (by simp)]
    rw [ih (fun x hx => h x (List.mem_cons_of_mem _ hx))]

theorem validateTodoArray_validTodos_eq (l : List Todo) (now : String)
    (h : ∀ t ∈ l, goodTodo t = true) :
    (validateTodoArray l now).validTodos = l := by
  show (l.filterMap fun t =>
    if (validateTodoData t now).isValid then
      some (validateTodoData t now).sanitizedTodo else none) = l
  apply filterMap_eq_self
  intro t ht
  obtain ⟨hv, hs⟩ := validateTodoData_good t now (h t ht)
  rw [hv, hs]
  rfl

theorem validTodos_mem {l : List Todo} {now : String} {t : Todo}
    (ht : t ∈ (validateTodoArray l now).validTodos) :
    ∃ s ∈ l, (validateTodoData s now).isValid = true ∧
      (validateTodoData s now).sanitizedTodo = t := by
  have h2 : t ∈ l.filterMap fun s =>
      if (validateTodoData s now).isValid then
        some (validateTodoData s now).sanitizedTodo else none := ht
  rw [List.mem_filterMap] at h2
  obtain ⟨a, ha, hfa⟩ := h2
  by_cases hv : (validateTodoData a now).isValid = true
  · rw [if_pos hv] at hfa
    exact ⟨a, ha, hv, Option.some.inj hfa⟩
  · rw [if_neg hv] at hfa
    cases hfa

theorem dataValid_createdAt {t : Todo} {now : String}
    (hv : (validateTodoData t now).isValid = true) :
    t.createdAt ≠ "" ∧ isoShape t.createdAt = true ∧
    (parseIsoMillis t.createdAt).isSome = true := by
  have herr : (validateTodoData t now).errors = [] := List.isEmpty_iff.mp hv
  have hc : validateTimestampErrors t.createdAt "createdAt" = [] := by
    have h2 : ((validateTodoText t.text).errors ++ validateTodoIdErrors t.id ++
        validateTimestampErrors t.createdAt "createdAt" ++
        validateTimestampErrors t.updatedAt "updatedAt") = [] := herr
    simp only [List.append_eq_nil] at h2
    tauto
  have h3 : ((if jsTrim t.createdAt == "" then
        [VError.tsEmpty "createdAt"] else []) ++
      (if t.createdAt != "" && !isoShape t.createdAt then
        [VError.tsBadPattern "createdAt"] else []) ++
      (if t.createdAt != "" && isoShape t.createdAt &&
          (parseIsoMillis t.createdAt).isNone then
        [VError.tsInvalidDate "createdAt"] else [])) = [] := hc
  simp only [List.append_eq_nil] at h3
  obtain ⟨⟨hb1, hb2⟩, hb3⟩ := h3
  have htr : jsTrim t.createdAt ≠ "" := by
    intro hh
    rw [if_pos (by simp [hh])] at hb1
    cases hb1
  have hne : t.createdAt ≠ "" := by
    intro hh
    exact htr (by rw [hh]; rfl)
  have hsh : isoShape t.createdAt = true := by
    rcases hs : isoShape t.createdAt with _ | _
    · exfalso
      rw [if_pos (by simp [hne, hs])] at hb2
      cases hb2
    · rfl
  have hps : (parseIsoMillis t.createdAt).isSome = true := by
    cases hp : parseIsoMillis t.createdAt with
    | none =>
      exfalso
      rw [if_pos (by simp [hne, hsh, hp])] at hb3
      cases hb3
    | some v => rfl
  exact ⟨hne, hsh, hps⟩

theorem validTodos_parse (l : List Todo) (now : String) :
    ∀ t ∈ (validateTodoArray l now).validTodos,
      (parseIsoMillis t.createdAt).isSome = true := by
  intro t ht
  obtain ⟨s, hs, hv, hsan⟩ := validTodos_mem ht
  obtain ⟨hne, hshape, hparse⟩ := dataValid_createdAt hv
  have hcr : t.createdAt = s.createdAt := by
    rw [← hsan]
    show (if s.createdAt == "" then now else s.createdAt) = s.createdAt
    rw [if_neg (by simp [hne])]
  rw [hcr]
  exact hparse

/-! ## Lemmas about the sort -/

theorem jsDateCmp_eq {a b : Todo} {x y : Int}
    (hb : parseIsoMillis b.createdAt = some x)
    (ha : parseIsoMillis a.createdAt = some y) :
    jsDateCmp a b = x - y := by
  unfold jsDateCmp
  rw [hb, ha]

theorem descR_of_not {a b : Todo}
    (ha : (parseIsoMillis a.createdAt).isSome = true)
    (hb : (parseIsoMillis b.createdAt).isSome = true)
    (h : ¬ jsDateCmp a b ≤ 0) : descR b a := by
  obtain ⟨x, hx⟩ := Option.isSome_iff_exists.mp ha
  obtain ⟨y, hy⟩ := Option.isSome_iff_exists.mp hb
  rw [jsDateCmp_eq hy hx] at h
  unfold descR
  rw [jsDateCmp_eq hx hy]
  omega

theorem descR_trans {a b c : Todo}
    (ha : (parseIsoMillis a.createdAt).isSome = true)
    (hb : (parseIsoMillis b.createdAt).isSome = true)
    (hc : (parseIsoMillis c.createdAt).isSome = true)
    (h1 : descR a b) (h2 : descR b c) : descR a c := by
  obtain ⟨x, hx⟩ := Option.isSome_iff_exists.mp ha
  obtain ⟨y, hy⟩ := Option.isSome_iff_exists.mp hb
  obtain ⟨z, hz⟩ := Option.isSome_iff_exists.mp hc
  unfold descR at *
  rw [jsDateCmp_eq hy hx] at h1
  rw [jsDateCmp_eq hz hy] at h2
  rw [jsDateCmp_eq hz hx]
  omega

theorem mem_insertTodo {t x : Todo} :
    ∀ {l : List Todo}, x ∈ insertTodo t l ↔ x = t ∨ x ∈ l := by
  intro l
  induction l with
  | nil => simp [insertTodo]
  | cons h rest ih =>
    unfold insertTodo
    by_cases hc : jsDateCmp t h ≤ 0
    · rw [if_pos hc]
      simp only [List.mem_cons]
    · rw [if_neg hc]
      simp only [List.mem_cons, ih]
      tauto

theorem mem_sortTodos {x : Todo} :
    ∀ {l : List Todo}, x ∈ sortTodos l ↔ x ∈ l := by
  intro l
  induction l with
  | nil => simp [sortTodos]
  | cons h rest ih =>
    unfold sortTodos
    rw [mem_insertTodo]
    simp only [List.mem_cons, ih]

theorem insertTodo_pairwise {t : Todo} :
    ∀ {l : List Todo},
      (parseIsoMillis t.createdAt).isSome = true →
      (∀ x ∈ l, (parseIsoMillis x.createdAt).isSome = true) →
      l.Pairwise descR → (insertTodo t l).Pairwise descR := by
  intro l
  induction l with
  | nil =>
    intro _ _ _
    simp [insertTodo]
  | cons h rest ih =>
    intro ht hl hp
    rw [List.pairwise_cons] at hp
    unfold insertTodo
    by_cases hc : jsDateCmp t h ≤ 0
    · rw [if_pos hc]
      rw [List.pairwise_cons]
      constructor
      · intro y hy
        rcases List.mem_cons.mp hy with h1 | h1
        · rw [h1]; exact hc
        · exact descR_trans ht (hl h (by simp)) (hl y (by simp [h1])) hc
            (hp.1 y h1)
      · rw [List.pairwise_cons]
        exact hp
    · rw [if_neg hc]
      rw [List.pairwise_cons]
      constructor
      · intro y hy
        rcases mem_insertTodo.mp hy with h1 | h1
        · rw [h1]
          exact descR_of_not ht (hl h (by simp)) hc
        · exact hp.1 y h1
      · exact ih ht (fun x hx => hl x (by simp [hx])) hp.2

theorem sortTodos_pairwise :
    ∀ {l : List Todo},
      (∀ x ∈ l, (parseIsoMillis x.createdAt).isSome = true) →
      (sortTodos l).Pairwise descR := by
  intro l
  induction l with
  | nil =>
    intro _
    simp [sortTodos]
  | cons h rest ih =>
    intro hl
    unfold sortTodos
    refine insertTodo_pairwise (hl h (by simp)) ?_ (ih ?_)
    · intro x hx
      exact hl x (by simp [mem_sortTodos.mp hx])
    · intro x hx
      exact hl x (by simp [hx])

theorem insertTodo_eq_cons {t : Todo} {l : List Todo}
    (h : ∀ x ∈ l, descR t x) : insertTodo t l = t :: l := by
  cases l with
  | nil => rfl
  | cons a rest =>
    have ha : jsDateCmp t a ≤ 0 := h a (by simp)
    unfold insertTodo
    rw [if_pos ha]

theorem sortTodos_eq_self :
    ∀ {l : List Todo}, l.Pairwise descR → sortTodos l = l := by
  intro l
  induction l with
  | nil => intro _; rfl
  | cons h rest ih =>
    intro hp
    rw [List.pairwise_cons] at hp
    unfold sortTodos
    rw [ih hp.2]
    exact insertTodo_eq_cons hp.1

/-! ## Lemmas about the batch object store -/

theorem heapGet_cons_zero (a : Todo) (l : List Todo) :
    heapGet (a :: l) 0 = a := rfl

theorem heapGet_cons_succ (a : Todo) (l : List Todo) (n : Nat) :
    heapGet (a :: l) (n + 1) = heapGet l n := by
  simp [heapGet]

theorem map_heapGet_range :
    ∀ (l : List Todo), (List.range l.length).map (heapGet l) = l := by
  intro l
  induction l with
  | nil => rfl
  | cons a rest ih =>
    rw [List.length_cons, List.range_succ_eq_map, List.map_cons, List.map_map]
    have hcomp : (heapGet (a :: rest) ∘ Nat.succ) = heapGet rest :=
      funext (fun n => heapGet_cons_succ a rest n)
    rw [hcomp, ih, heapGet_cons_zero]

theorem find_range_none (l : List Todo) (p : Todo → Bool)
    (h : l.find? p = none) :
    (List.range l.length).find? (fun n => p (heapGet l n)) = none := by
  rw [List.find?_eq_none] at h ⊢
  intro n hn
  rw [List.mem_range] at hn
  rw [show heapGet l n = l[n] from List.getD_eq_getElem l dummyTodo hn]
  exact h _ (List.getElem_mem hn)

theorem find_range_some (l : List Todo) (p : Todo → Bool) (t : Todo)
    (h : l.find? p = some t) :
    ∃ k, (List.range l.length).find? (fun n => p (heapGet l n)) = some k ∧
      heapGet l k = t ∧ p t = true := by
  induction l with
  | nil => cases h
  | cons a rest ih =>
    by_cases hpa : p a = true
    · rw [List.find?_cons_of_pos _ hpa] at h
      injection h with h2
      subst h2
      refine ⟨0, ?_, rfl, hpa⟩
      rw [List.length_cons, List.range_succ_eq_map]
      exact List.find?_cons_of_pos _ hpa
    · rw [List.find?_cons_of_neg _ hpa] at h
      obtain ⟨k, hk1, hk2, hk3⟩ := ih h
      refine ⟨k + 1, ?_, hk2, hk3⟩
      rw [List.length_cons, List.range_succ_eq_map]
      have hq : ¬(fun n => p (heapGet (a :: rest) n)) 0 = true := hpa
      rw [@List.find?_cons_of_neg Nat (fun n => p (heapGet (a :: rest) n)) 0
        (List.map Nat.succ (List.range rest.length)) hq]
      rw [List.find?_map]
      have hcomp : ((fun n => p (heapGet (a :: rest) n)) ∘ Nat.succ) =
          (fun n => p (heapGet rest n)) := funext (fun n => by
        simp [Function.comp, heapGet_cons_succ])
      rw [hcomp, hk1]
      rfl

theorem batchStep_noop (now action : String) (todos : List Todo) (id : String)
    (hnoop : ∀ t, jsFind todos id = some t →
      (action = "complete" ∧ t.completed = true) ∨
      (action = "incomplete" ∧ t.completed = false)) :
    batchStep now action (todos, List.range todos.length, 0) id =
      (todos, List.range todos.length, 0) := by
  cases hf : jsFind todos id with
  | none =>
    have hr := find_range_none todos (fun t => t.id == id) hf
    simp only [batchStep, hr]
  | some t =>
    obtain ⟨k, hk1, hk2, hk3⟩ :=
      find_range_some todos (fun t => t.id == id) t hf
    rcases hnoop t hf with ⟨hac, hcom⟩ | ⟨hac, hcom⟩
    · subst hac
      simp only [batchStep, hk1, hk2, hcom]
      rfl
    · subst hac
      have hne : (("incomplete" : String) == "complete") = false := by decide
      simp only [batchStep, hk1, hk2, hcom, hne]
      rfl

theorem batch_foldl_noop (now action : String) (todos : List Todo) :
    ∀ (ids : List String),
      (∀ id ∈ ids, ∀ t, jsFind todos id = some t →
        (action = "complete" ∧ t.completed = true) ∨
        (action = "incomplete" ∧ t.completed = false)) →
      ids.foldl (batchStep now action)
          (todos, List.range todos.length, 0) =
        (todos, List.range todos.length, 0) := by
  intro ids
  induction ids with
  | nil => intro _; rfl
  | cons i rest ih =>
    intro h
    rw [List.foldl_cons, batchStep_noop now action todos i (h i (by simp))]
    exact ih (fun id hid t ht => h id (by simp [hid]) t ht)

/-! ## Lemmas about addTodo -/

theorem addTodo_valid_save (st : MState) (text newId now : String)
    (hinit : st.initialized = true)
    (hv : (validateTodoText text).isValid = true) :
    addTodo st text newId now true =
      ⟨⟨newTodoOf text newId now :: st.todos, st.initialized,
        some ⟨newTodoOf text newId now :: st.todos, "1.0", some now⟩⟩,
       some (newTodoOf text newId now),
       [Event.todosSaved, Event.todoAdded], 1⟩ := by
  simp only [addTodo, createValidTodo, saveTodosM, storageSaveTodos, hinit,
    hv, newTodoOf, Bool.not_true, Bool.false_eq_true, if_false, if_true,
    Option.getD_some]
  rfl

theorem addTodo_invalid (st : MState) (text newId now : String)
    (saveOk : Bool) (hinit : st.initialized = true)
    (hv : (validateTodoText text).isValid = false) :
    addTodo st text newId now saveOk =
      ⟨st, none, [Event.validationError "add"], 0⟩ := by
  simp only [addTodo, createValidTodo, hinit, hv, Bool.not_false,
    Bool.not_true, if_true, Bool.false_eq_true, if_false]

/-! ## Claim theorems -/

/-- Claim C8: `getStats` returns `total` equal to the list length,
`completed` the number of completed records, `pending` the number of pending
records, and `completionRate` equal to completed/total rounded to two
decimal places when the list is non-empty and exactly 0 for the empty list,
with no division fault. -/
theorem c8_getStats (todos : List Todo) :
    (getStats todos).total = todos.length ∧
    (getStats todos).completed = todos.countP (fun t => t.completed) ∧
    (getStats todos).pending = todos.countP (fun t => !t.completed) ∧
    (0 < todos.length →
      (getStats todos).completionRate =
        (jsRound (((todos.countP (fun t => t.completed) : ℚ) /
          (todos.length : ℚ)) * 100) : ℚ) / 100) ∧
    (todos.length = 0 → getStats todos = ⟨0, 0, 0, 0⟩) := by
  refine ⟨rfl, ?_, ?_, ?_, ?_⟩
  · show (List.filter (fun t => t.completed) todos).length = _
    rw [List.countP_eq_length_filter]
  · show (List.filter (fun t => !t.completed) todos).length = _
    rw [List.countP_eq_length_filter]
  · intro h
    show (jsRound ((if todos.length > 0 then
        (((List.filter (fun t => t.completed) todos).length : ℚ) /
          (todos.length : ℚ)) else 0) * 100) : ℚ) / 100 = _
    rw [if_pos h, List.countP_eq_length_filter]
  · intro h
    rw [List.length_eq_zero.mp h]
    show Stats.mk 0 0 0 ((jsRound ((0 : ℚ) * 100) : ℚ) / 100) = ⟨0, 0, 0, 0⟩
    norm_num [jsRound]

/-- Claim C9: a non-empty query consisting only of whitespace is lowered and
trimmed to the empty string, which is a substring of every text, so
`searchTodos` returns every record in list order, whereas the empty-string
query returns the empty result. -/
theorem c9_search_whitespace (st : MState) (q : String) (h1 : q ≠ "")
    (h2 : ∀ c ∈ q.data, isJsWhitespace c = true) :
    searchTodos st q = getAllTodos st ∧ searchTodos st "" = [] := by
  constructor
  · have htrim : jsTrim (jsToLower q) = "" := by
      apply String.ext
      show jsTrimChars (q.data.map Char.toLower) = []
      apply jsTrimChars_eq_nil
      intro c hc
      rw [List.mem_map] at hc
      obtain ⟨a, ha, hrfl⟩ := hc
      rw [← hrfl, toLower_of_ws (h2 a ha)]
      exact h2 a ha
    unfold searchTodos
    rw [if_neg (by simp [h1])]
    simp only [htrim]
    rw [List.filter_eq_self.mpr (fun t _ => jsIncludes_empty (jsToLower t.text))]
    rfl
  · rfl

/-- Closed witness for C9 at the query `" "` and a concrete state. -/
theorem c9_search_whitespace_witness :
    (" " : String) ≠ "" ∧
    (∀ c ∈ (" " : String).data, isJsWhitespace c = true) ∧
    (searchTodos sampleState " " = getAllTodos sampleState ∧
     searchTodos sampleState "" = []) :=
  ⟨by decide, by decide,
   c9_search_whitespace sampleState " " (by decide) (by decide)⟩

/-- Claim C6: for text that is empty after trimming or longer than 200
characters, `addTodo` returns null, leaves the whole state (in particular
the list) unchanged, attempts no storage write, and emits a
validation-error notification. -/
theorem c6_add_invalid_rejected (st : MState) (text newId now : String)
    (saveOk : Bool) (hinit : st.initialized = true)
    (hbad : jsTrim text = "" ∨ 200 < jsLength text) :
    (addTodo st text newId now saveOk).ret = none ∧
    (addTodo st text newId now saveOk).state = st ∧
    (addTodo st text newId now saveOk).saveCalls = 0 ∧
    (addTodo st text newId now saveOk).events =
      [Event.validationError "add"] := by
  have hv : (validateTodoText text).isValid = false :=
    (validText_invalid_iff text).mpr
      (by rcases hbad with h | h
          · exact Or.inl h
          · exact Or.inr (Or.inl h))
  rw [addTodo_invalid st text newId now saveOk hinit hv]
  exact ⟨rfl, rfl, rfl, rfl⟩

/-- Closed witness for C6 at the blank text `" "`. -/
theorem c6_add_invalid_rejected_witness :
    sampleState.initialized = true ∧ jsTrim " " = "" ∧
    (addTodo sampleState " " "n1" sampleT1 true).ret = none ∧
    (addTodo sampleState " " "n1" sampleT1 true).state = sampleState :=
  ⟨rfl, by decide,
   (c6_add_invalid_rejected sampleState " " "n1" sampleT1 true rfl
     (Or.inl (by decide))).1,
   (c6_add_invalid_rejected sampleState " " "n1" sampleT1 true rfl
     (Or.inl (by decide))).2.1⟩

set_option maxRecDepth 8192 in
/-- Claim C4 as frozen is false on the code: `validateTodoText` measures the
RAW length, so 200 copies of `a` plus a trailing space (raw length 201,
trimmed length 200, non-blank, no angle brackets) is rejected although the
claim predicts acceptance. -/
theorem c4_counterexample :
    (validateTodoText longA).isValid = false ∧ ¬claimTextRejects longA := by
  constructor
  · decide
  · decide

/-- Claim C4 amended: `validateTodoText` rejects a string exactly when it is
blank after trimming, its RAW (untrimmed) length exceeds 200, or the raw
input contains `<` or `>`; the 1-character lower bound never fires on its
own because a non-empty string has length at least one. -/
theorem c4_amended_reject_iff (s : String) :
    (validateTodoText s).isValid = false ↔
      jsTrim s = "" ∨ 200 < jsLength s ∨ containsAngle s = true :=
  validText_invalid_iff s

/-- Claim C5 as frozen is false on the code: `" "` is one character long and
contains no angle bracket, the manager is initialized and the save would
succeed, yet `add` rejects it (blank after trimming) and returns null. -/
theorem c5_counterexample :
    jsLength " " = 1 ∧ containsAngle " " = false ∧
    sampleState.initialized = true ∧
    (addTodo sampleState " " "n2" sampleT1 true).ret = none := by
  refine ⟨by decide, by decide, rfl, by decide⟩

/-- Claim C5 amended: for text of 1-200 characters that is also non-blank
after trimming and free of angle brackets, on an initialized manager whose
save succeeds, `add` returns (non-null) a record carrying the freshly
generated id - distinct from the id of every record already in the list
whenever the generator avoids collision, which is the oracle hypothesis -
with `completed = false` and `createdAt = updatedAt`. -/
theorem c5_amended_add_valid (st : MState) (text newId now : String)
    (hinit : st.initialized = true)
    (h1 : jsTrim text ≠ "") (h2 : 1 ≤ jsLength text)
    (h3 : jsLength text ≤ 200) (h4 : containsAngle text = false)
    (hfresh : ∀ t ∈ st.todos, t.id ≠ newId) :
    ∃ r, (addTodo st text newId now true).ret = some r ∧
      r.id = newId ∧ (∀ t ∈ st.todos, t.id ≠ r.id) ∧
      r.completed = false ∧ r.createdAt = r.updatedAt := by
  have hv := validText_valid h1 h3 h4
  rw [addTodo_valid_save st text newId now hinit hv]
  exact ⟨newTodoOf text newId now, rfl, rfl, hfresh, rfl, rfl⟩

/-- Closed witness for the amended C5 at the text `"hello"`. -/
theorem c5_amended_add_valid_witness :
    ∃ r, (addTodo sampleState "hello" "n3" sampleT1 true).ret = some r ∧
      r.id = "n3" ∧ (∀ t ∈ sampleState.todos, t.id ≠ r.id) ∧
      r.completed = false ∧ r.createdAt = r.updatedAt :=
  c5_amended_add_valid sampleState "hello" "n3" sampleT1 rfl (by decide)
    (by decide) (by decide) (by decide) (by decide)

/-- Claim C1 is right about the intent but the code's rollback is broken
(code bug): with the storage save failing, `batchOperation(["a1"],
"complete")` on a pending record emits the save-error notification and
returns failure, but does NOT restore the list byte-for-byte - the rollback
`this.todos = originalTodos` re-installs a shallow array copy that shares
the mutated record object, so `completed` and `updatedAt` remain changed.
`toggleTodo`'s rollback likewise restores `completed` but leaves `updatedAt`
at the new timestamp. -/
theorem c1_rollback_not_restored :
    (batchOperation sampleState ["a1"] "complete" sampleT1 false).events =
      [Event.errorSave "batch"] ∧
    (batchOperation sampleState ["a1"] "complete" sampleT1 false).ret =
      ⟨false, 0⟩ ∧
    (batchOperation sampleState ["a1"] "complete" sampleT1 false).state.todos
      ≠ sampleState.todos ∧
    (batchOperation sampleState ["a1"] "complete" sampleT1 false).state.todos
      = [{ sampleTodo with completed := true, updatedAt := sampleT1 }] ∧
    (toggleTodo sampleState "a1" sampleT1 false).events =
      [Event.errorSave "toggle"] ∧
    (toggleTodo sampleState "a1" sampleT1 false).state.todos =
      [{ sampleTodo with updatedAt := sampleT1 }] ∧
    (toggleTodo sampleState "a1" sampleT1 false).state.todos ≠
      sampleState.todos := by
  refine ⟨?_, ?_, ?_, ?_, ?_, ?_, ?_⟩ <;> decide

/-- Claim C10: on an initialized manager, a batch call with a non-empty id
array and a valid action in which no record actually changes performs no
storage write, leaves the state (hence the list) unchanged, returns
`{success := false, processed := 0}`, and still emits an error notification
of type save - a fully no-op batch is reported as a save failure. -/
theorem c10_batch_noop (st : MState) (ids : List String) (action now : String)
    (saveOk : Bool) (hinit : st.initialized = true) (hne : ids ≠ [])
    (hact : action = "complete" ∨ action = "incomplete" ∨ action = "delete")
    (hnoop : ∀ id ∈ ids, ∀ t, jsFind st.todos id = some t →
      (action = "complete" ∧ t.completed = true) ∨
      (action = "incomplete" ∧ t.completed = false)) :
    (batchOperation st ids action now saveOk).state = st ∧
    (batchOperation st ids action now saveOk).ret = ⟨false, 0⟩ ∧
    (batchOperation st ids action now saveOk).saveCalls = 0 ∧
    (batchOperation st ids action now saveOk).events =
      [Event.errorSave "batch"] := by
  have hfold := batch_foldl_noop now action st.todos ids hnoop
  have hisEmpty : ids.isEmpty = false := by
    cases ids with
    | nil => exact absurd rfl hne
    | cons a l => rfl
  have hactB : (action == "complete" || action == "incomplete" ||
      action == "delete") = true := by
    rcases hact with h | h | h <;> rw [h] <;> decide
  have hmap := map_heapGet_range st.todos
  unfold batchOperation
  simp only [hinit, Bool.not_true, Bool.false_eq_true, if_false, hisEmpty,
    hactB, Bool.not_false, hfold, hmap]
  rw [if_neg (by omega)]
  refine ⟨?_, rfl, rfl, rfl⟩
  show MState.mk st.todos true st.stored = st
  rw [← hinit]

/-- Closed witness for C10: deleting an absent id is a no-op batch. -/
theorem c10_batch_noop_witness :
    (batchOperation sampleState ["zz"] "delete" sampleT1 true).state =
      sampleState ∧
    (batchOperation sampleState ["zz"] "delete" sampleT1 true).ret =
      ⟨false, 0⟩ ∧
    (batchOperation sampleState ["zz"] "delete" sampleT1 true).saveCalls = 0 ∧
    (batchOperation sampleState ["zz"] "delete" sampleT1 true).events =
      [Event.errorSave "batch"] :=
  c10_batch_noop sampleState ["zz"] "delete" sampleT1 true rfl (by decide)
    (Or.inr (Or.inr rfl))
    (by
      intro id hid t ht
      have hz : id = "zz" := by simpa using hid
      rw [hz, show jsFind sampleState.todos "zz" = none from rfl] at ht
      cases ht)

/-- Claim C3 as frozen is false on the code: `validateTodoArray` reports the
duplicate id as an error but pushes BOTH individually valid occurrences into
`validTodos`, and `initialize` keeps them, so the in-memory list ends up
with two records carrying the same id. -/
theorem c3_counterexample :
    (validateTodoArray [dupA, dupB] sampleT1).validTodos = [dupA, dupB] ∧
    (validateTodoArray [dupA, dupB] sampleT1).isValid = false ∧
    ((initializeM ⟨[], false, some ⟨[dupA, dupB], "1.0", none⟩⟩ sampleT1
        genDefault).1).todos.map (fun t => t.id) = ["dup1", "dup1"] := by
  refine ⟨?_, ?_, ?_⟩ <;> decide

theorem dupIdStep_keeps_errors (acc : List String × List VError) (t : Todo)
    (h : acc.2 ≠ []) : (dupIdStep acc t).2 ≠ [] := by
  unfold dupIdStep
  by_cases h1 : (t.id != "" && acc.1.contains t.id) = true
  · rw [if_pos h1]
    simp
  · rw [if_neg h1]
    by_cases h2 : (t.id != "") = true
    · rw [if_pos h2]
      exact h
    · rw [if_neg h2]
      exact h

theorem dupFold_keeps_errors :
    ∀ (l : List Todo) (acc : List String × List VError), acc.2 ≠ [] →
      (l.foldl dupIdStep acc).2 ≠ [] := by
  intro l
  induction l with
  | nil => intro acc h; exact h
  | cons t rest ih =>
    intro acc h
    rw [List.foldl_cons]
    exact ih _ (dupIdStep_keeps_errors acc t h)

theorem dupIdStep_keeps_seen (acc : List String × List VError) (t : Todo)
    (x : String) (h : x ∈ acc.1) : x ∈ (dupIdStep acc t).1 := by
  unfold dupIdStep
  by_cases h1 : (t.id != "" && acc.1.contains t.id) = true
  · rw [if_pos h1]; exact h
  · rw [if_neg h1]
    by_cases h2 : (t.id != "") = true
    · rw [if_pos h2]
      exact List.mem_append_left _ h
    · rw [if_neg h2]; exact h

theorem dupFold_keeps_seen :
    ∀ (l : List Todo) (acc : List String × List VError) (x : String),
      x ∈ acc.1 → x ∈ (l.foldl dupIdStep acc).1 := by
  intro l
  induction l with
  | nil => intro acc x h; exact h
  | cons t rest ih =>
    intro acc x h
    rw [List.foldl_cons]
    exact ih _ x (dupIdStep_keeps_seen acc t x h)

theorem dupIdStep_adds_seen (acc : List String × List VError) (t : Todo)
    (h : t.id ≠ "") : t.id ∈ (dupIdStep acc t).1 := by
  unfold dupIdStep
  by_cases h1 : (t.id != "" && acc.1.contains t.id) = true
  · rw [if_pos h1]
    have hx := (Bool.and_eq_true _ _).mp h1
    exact List.mem_of_elem_eq_true hx.2
  · rw [if_neg h1]
    rw [if_pos (by simp [h])]
    simp

theorem dupIdStep_dup_error (acc : List String × List VError) (t : Todo)
    (h1 : t.id ≠ "") (h2 : t.id ∈ acc.1) : (dupIdStep acc t).2 ≠ [] := by
  unfold dupIdStep
  rw [if_pos (by simp [h1, h2])]
  simp

theorem dupIdErrors_ne_nil (pre mid post : List Todo) (t1 t2 : Todo)
    (hid : t1.id = t2.id) (hne : t1.id ≠ "") :
    dupIdErrors (pre ++ t1 :: (mid ++ t2 :: post)) ≠ [] := by
  unfold dupIdErrors
  rw [List.foldl_append, List.foldl_cons, List.foldl_append, List.foldl_cons]
  apply dupFold_keeps_errors
  apply dupIdStep_dup_error
  · rw [← hid]; exact hne
  · rw [← hid]
    exact dupFold_keeps_seen mid _ t1.id (dupIdStep_adds_seen _ t1 hne)

/-- Claim C3 amended: the validated set produced during load contains EVERY
individually valid record, including later occurrences of a duplicated id -
the duplicate is reported as an error only - so after `initialize` the
in-memory list may contain repeated ids. -/
theorem c3_amended_duplicates_kept (pre mid post : List Todo) (t1 t2 : Todo)
    (now : String) (hid : t1.id = t2.id) (hne : t1.id ≠ "")
    (h1 : (validateTodoData t1 now).isValid = true)
    (h2 : (validateTodoData t2 now).isValid = true) :
    2 ≤ ((validateTodoArray (pre ++ t1 :: (mid ++ t2 :: post))
        now).validTodos.countP (fun t => t.id == t1.id)) ∧
    (validateTodoArray (pre ++ t1 :: (mid ++ t2 :: post)) now).isValid =
      false := by
  constructor
  · show 2 ≤ (((pre ++ t1 :: (mid ++ t2 :: post)).filterMap fun t =>
      if (validateTodoData t now).isValid then
        some (validateTodoData t now).sanitizedTodo else none).countP
        (fun t => t.id == t1.id))
    rw [List.filterMap_append,
      @List.filterMap_cons_some Todo Todo
        (fun t => if (validateTodoData t now).isValid then
          some (validateTodoData t now).sanitizedTodo else none)
        t1 (mid ++ t2 :: post) ((validateTodoData t1 now).sanitizedTodo)
        (by simp [h1]),
      List.filterMap_append,
      @List.filterMap_cons_some Todo Todo
        (fun t => if (validateTodoData t now).isValid then
          some (validateTodoData t now).sanitizedTodo else none)
        t2 post ((validateTodoData t2 now).sanitizedTodo)
        (by simp [h2])]
    have e1 : ((validateTodoData t1 now).sanitizedTodo.id == t1.id) = true :=
      by show (t1.id == t1.id) = true; simp
    have e2 : ((validateTodoData t2 now).sanitizedTodo.id == t1.id) = true :=
      by show (t2.id == t1.id) = true; simp [hid]
    rw [List.countP_append, List.countP_cons, List.countP_append,
      List.countP_cons]
    simp only [e1, e2, if_true]
    omega
  · show (dupIdErrors (pre ++ t1 :: (mid ++ t2 :: post)) ++
      ((pre ++ t1 :: (mid ++ t2 :: post)).filterMap fun t =>
        if (validateTodoData t now).isValid then none
        else some VError.itemInvalid)).isEmpty = false
    have hd := dupIdErrors_ne_nil pre mid post t1 t2 hid hne
    obtain ⟨e, es, hdd⟩ := List.exists_cons_of_ne_nil hd
    rw [hdd]
    simp

/-- Closed witness for the amended C3 at two concrete records sharing the
id `dup1`. -/
theorem c3_amended_duplicates_kept_witness :
    2 ≤ ((validateTodoArray ([] ++ dupA :: ([] ++ dupB :: []))
        sampleT1).validTodos.countP (fun t => t.id == dupA.id)) ∧
    (validateTodoArray ([] ++ dupA :: ([] ++ dupB :: []))
        sampleT1).isValid = false :=
  c3_amended_duplicates_kept [] [] [] dupA dupB sampleT1 rfl (by decide)
    (by decide) (by decide)

/-- Claim C7: newest-creation-first order. `initialize` sorts the loaded
records by `createdAt` descending (every creation time parses, and each
pairwise-later record has a creation time no greater than the earlier one),
a successful `add` places the new record at index 0, and starting from empty
storage the scenario add "Buy milk" then add "Walk dog" makes `getAll`
return the "Walk dog" record before the "Buy milk" record. -/
theorem c7_newest_first (st st2 : MState) (now now2 newId text : String)
    (gen : Nat → String) (hinit2 : st2.initialized = true)
    (hval : (validateTodoText text).isValid = true) :
    (∀ t ∈ ((initializeM st now gen).1).todos,
      (parseIsoMillis t.createdAt).isSome = true) ∧
    ((initializeM st now gen).1).todos.Pairwise descR ∧
    ((addTodo st2 text newId now2 true).state.todos =
        newTodoOf text newId now2 :: st2.todos ∧
      (addTodo st2 text newId now2 true).ret =
        some (newTodoOf text newId now2)) ∧
    (getAllTodos (addTodo (addTodo (initializeM emptyState sampleT0
          genDefault).1 "Buy milk" "id1" sampleT0 true).state "Walk dog"
        "id2" sampleT1 true).state).map (fun t => t.text) =
      ["Walk dog", "Buy milk"] := by
  have hparse :=
    validTodos_parse (storageLoadTodos st.stored now gen).todos now
  refine ⟨?_, ?_, ?_, ?_⟩
  · intro t ht
    exact hparse t (mem_sortTodos.mp ht)
  · exact sortTodos_pairwise hparse
  · rw [addTodo_valid_save st2 text newId now2 hinit2 hval]
    exact ⟨rfl, rfl⟩
  · decide

/-- Closed witness for C7 at concrete states and inputs. -/
theorem c7_newest_first_witness :
    ((addTodo sampleState "hello" "n7" sampleT1 true).state.todos =
      newTodoOf "hello" "n7" sampleT1 :: sampleState.todos) ∧
    ((initializeM emptyState sampleT0 genDefault).1).todos.Pairwise descR :=
  ⟨((c7_newest_first emptyState sampleState sampleT0 sampleT1 "n7" "hello"
      genDefault rfl (by decide)).2.2.1).1,
   (c7_newest_first emptyState sampleState sampleT0 sampleT1 "n7" "hello"
      genDefault rfl (by decide)).2.1⟩

/-- Claim C2 as frozen is false on the code: reloading re-runs sanitisation,
so the reachable state holding the record for the text `a&b` (stored
HTML-escaped as `a&amp;b`, with the in-memory list equal to the persisted
copy) comes back double-escaped (`a&amp;amp;b`) from the
`importData(exportData())` round trip, changing `getAll()`. -/
theorem c2_counterexample :
    roundTripState.todos.map (fun t => t.text) = ["a&amp;b"] ∧
    roundTripState.stored =
      some ⟨roundTripState.todos, "1.0", some sampleT0⟩ ∧
    (managerImportData roundTripState
      (exportDataM roundTripState sampleT1 genDefault) sampleT1 genDefault
      true).ret = true ∧
    getAllTodos (managerImportData roundTripState
      (exportDataM roundTripState sampleT1 genDefault) sampleT1 genDefault
      true).state ≠ getAllTodos roundTripState ∧
    (managerImportData roundTripState
      (exportDataM roundTripState sampleT1 genDefault) sampleT1 genDefault
      true).state.todos.map (fun t => t.text) = ["a&amp;amp;b"] := by
  refine ⟨?_, ?_, ?_, ?_, ?_⟩ <;> decide

theorem migrateTodo_good (now : String) (gen : Nat → String) (i : Nat)
    (t : Todo) (h : goodTodo t = true) : migrateTodo now gen i t = t := by
  obtain ⟨hne, hst, hid, ⟨hcs, hcp⟩, ⟨hus, hup⟩⟩ := goodTodo_facts h
  have hidne : t.id ≠ "" := by
    intro hh
    rw [idPatternTest, hh] at hid
    simp at hid
  unfold migrateTodo
  rw [if_neg (by simp [hidne]), if_neg (by simp [isoShape_ne_empty hcs]),
    if_neg (by simp [isoShape_ne_empty hus]), Bool.or_false]

theorem migrateList_good (now : String) (gen : Nat → String) :
    ∀ (l : List Todo) (i : Nat), (∀ t ∈ l, goodTodo t = true) →
      migrateList now gen i l = l := by
  intro l
  induction l with
  | nil => intro i _; rfl
  | cons t rest ih =>
    intro i h
    unfold migrateList
    rw [migrateTodo_good now gen i t (h t (by simp)),
      ih (i + 1) (fun x hx => h x (by simp [hx]))]

theorem loadTodosM_good (st : MState) (todos : List Todo) (v : String)
    (ls : Option String) (now : String) (gen : Nat → String)
    (hstored : st.stored = some ⟨todos, v, ls⟩)
    (hgood : ∀ t ∈ todos, goodTodo t = true)
    (hsorted : todos.Pairwise descR) :
    (loadTodosM st now gen).1 = { st with todos := todos } := by
  have hsl : storageLoadTodos st.stored now gen =
      ⟨migrateList now gen 0 todos, v, ls⟩ := by
    rw [hstored]
    rfl
  show ({ st with todos := sortTodos (validateTodoArray
    (storageLoadTodos st.stored now gen).todos now).validTodos } : MState) =
    { st with todos := todos }
  rw [hsl]
  show ({ st with todos := sortTodos (validateTodoArray
    (migrateList now gen 0 todos) now).validTodos } : MState) =
    { st with todos := todos }
  rw [migrateList_good now gen todos 0 hgood,
    validateTodoArray_validTodos_eq todos now hgood,
    sortTodos_eq_self hsorted]

theorem managerImportData_all_ok (st : MState) (env2 : StoredData)
    (now : String) (gen : Nat → String)
    (hall : env2.todos.all (fun t => t.text != "") = true) :
    managerImportData st env2 now gen true =
      ⟨(loadTodosM { st with stored := some (storageSaveTodos env2.todos now) }
          now gen).1, true, [Event.todosLoaded, Event.dataImported], 1⟩ := by
  unfold managerImportData
  rw [hall]
  rfl

/-- Claim C2 amended: the export/import round trip succeeds and leaves
`getAll()` unchanged on an initialized state whose in-memory list matches
the persisted copy, provided additionally that every record is fully well
formed with text that sanitisation leaves unchanged (no markup-significant
or control characters and no surrounding whitespace - exactly the
requirement the counterexample shows to be necessary) and the list is in
newest-first order (reloading re-sorts). -/
theorem c2_amended_roundtrip (st : MState) (env : StoredData)
    (now now2 : String) (gen gen2 : Nat → String)
    (hinit : st.initialized = true)
    (hstored : st.stored = some env) (hmatch : env.todos = st.todos)
    (hgood : ∀ t ∈ st.todos, goodTodo t = true)
    (hsorted : st.todos.Pairwise descR) :
    (managerImportData st (exportDataM st now gen) now2 gen2 true).ret =
      true ∧
    getAllTodos (managerImportData st (exportDataM st now gen) now2 gen2
      true).state = getAllTodos st := by
  have hexp : exportDataM st now gen =
      ⟨st.todos, env.version, env.lastSync⟩ := by
    unfold exportDataM storageLoadTodos
    rw [hstored]
    show ({ env with todos := migrateList now gen 0 env.todos } :
      StoredData) = ⟨st.todos, env.version, env.lastSync⟩
    rw [hmatch, migrateList_good now gen st.todos 0 hgood]
  have hall : ((⟨st.todos, env.version, env.lastSync⟩ :
      StoredData).todos.all (fun t => t.text != "")) = true := by
    rw [List.all_eq_true]
    intro t ht
    have := (goodTodo_facts (hgood t ht)).1
    simp [this]
  have hred := managerImportData_all_ok st
    ⟨st.todos, env.version, env.lastSync⟩ now2 gen2 hall
  have hload := loadTodosM_good
    { st with stored := some (storageSaveTodos st.todos now2) }
    st.todos "1.0" (some now2) now2 gen2 rfl hgood hsorted
  rw [hexp, hred]
  refine ⟨rfl, ?_⟩
  have hgoal :
      getAllTodos ((loadTodosM
        ({ st with stored := some (storageSaveTodos st.todos now2) })
        now2 gen2).1) = getAllTodos st := by
    rw [hload]
    rfl
  exact hgoal

/-- Closed witness for the amended C2 at a concrete in-sync state. -/
theorem c2_amended_roundtrip_witness :
    (managerImportData sampleState (exportDataM sampleState sampleT1
        genDefault) sampleT1 genDefault true).ret = true ∧
    getAllTodos (managerImportData sampleState (exportDataM sampleState
        sampleT1 genDefault) sampleT1 genDefault true).state =
      getAllTodos sampleState :=
  c2_amended_roundtrip sampleState ⟨[sampleTodo], "1.0", some sampleT0⟩
    sampleT1 sampleT1 genDefault genDefault rfl rfl rfl (by decide)
    (by
      refine List.Pairwise.cons ?_ List.Pairwise.nil
      intro y hy
      simp at hy)

/-- Closed witness for C8 at a singleton list and the empty list. -/
theorem c8_getStats_witness :
    0 < ([sampleTodo] : List Todo).length ∧
    (getStats [sampleTodo]).completionRate =
      (jsRound (((([sampleTodo] : List Todo).countP
        (fun t => t.completed) : ℚ) /
        (([sampleTodo] : List Todo).length : ℚ)) * 100) : ℚ) / 100 ∧
    getStats [] = ⟨0, 0, 0, 0⟩ :=
  ⟨by decide, (c8_getStats [sampleTodo]).2.2.2.1 (by decide),
   (c8_getStats []).2.2.2.2 rfl⟩
